import Mathlib

/-!
Shallow embedding of the text-processing and score-keeping services of the
ai-quiz-generator repository.  JS strings are modelled as `List Char`
(ASCII-faithful), JS numbers as `ℚ`, the fetch/localStorage surfaces as
explicit oracle environments.  Presentation-only `url` fields (built with
`encodeURIComponent`) are omitted from the embedded records, as no claim
refers to them.
-/

/-- JS `String.prototype.toLowerCase`, modelled per character (ASCII). -/
def jsToLower (s : List Char) : List Char := s.map Char.toLower

/-- Does `s` start with `p`?  Auxiliary for substring search. -/
def startsWithList : List Char → List Char → Bool
  | _, [] => true
  | [], _ :: _ => false
  | a :: s, b :: t => a == b && startsWithList s t

/-- JS `String.prototype.includes`: substring containment. -/
def jsIncludes (hay needle : List Char) : Bool :=
  match hay with
  | [] => needle.isEmpty
  | _ :: t => startsWithList hay needle || jsIncludes t needle

/-- JS regex `\w`: ASCII letters, digits, underscore. -/
def isWordChar (c : Char) : Bool := c.isAlpha || c.isDigit || c == '_'

/-- Worker for `splitRuns`: `cur` is the current token (reversed), the Bool
says whether the previous character belonged to a separator run. -/
def splitRunsGo (p : Char → Bool) : List Char → Bool → List Char → List (List Char)
  | cur, _, [] => [cur.reverse]
  | cur, prevSep, c :: rest =>
    if p c then
      if prevSep then splitRunsGo p cur true rest
      else cur.reverse :: splitRunsGo p [] true rest
    else splitRunsGo p (c :: cur) false rest

/-- JS `String.prototype.split` on a regex matching runs of characters
satisfying `p` (such as `/\s+/` or `/[.!?]+/`): maximal separator runs
delimit tokens, with an empty leading/trailing token when the string
starts/ends with a separator. -/
def splitRuns (p : Char → Bool) (s : List Char) : List (List Char) :=
  splitRunsGo p [] false s

/-- `split(/\s+/)`. -/
def splitWs : List Char → List (List Char) := splitRuns Char.isWhitespace

/-- Worker for `replaceRuns`. -/
def replaceRunsGo (p : Char → Bool) (r : Char) : Bool → List Char → List Char
  | _, [] => []
  | prevSep, c :: rest =>
    if p c then
      if prevSep then replaceRunsGo p r true rest
      else r :: replaceRunsGo p r true rest
    else c :: replaceRunsGo p r false rest

/-- JS `replace(/X+/g, r)`: each maximal run of characters satisfying `p`
becomes the single character `r`. -/
def replaceRuns (p : Char → Bool) (r : Char) (s : List Char) : List Char :=
  replaceRunsGo p r false s

/-- JS `replace(/[^\w\s]/g, ' ')`: non-word, non-whitespace characters
become spaces. -/
def replaceNonWord (s : List Char) : List Char :=
  s.map (fun c => if isWordChar c || c.isWhitespace then c else ' ')

/-- JS `String.prototype.trim` (left half). -/
def trimLeft (s : List Char) : List Char := s.dropWhile Char.isWhitespace

/-- JS `String.prototype.trim`. -/
def jsTrim (s : List Char) : List Char :=
  ((trimLeft s).reverse.dropWhile Char.isWhitespace).reverse

/-- `WikipediaArticle` record (client service); the presentation-only `url`
field is omitted. -/
structure WikipediaArticle where
  title : List Char
  extract : List Char
  pageid : Int
  lastrevid : Int
  sections : List (List Char)
deriving DecidableEq

/-- `calculateRelevanceScore` from
`src/client/src/services/wikipediaService.ts` (lines 313-342), with JS
number arithmetic modelled over `ℚ`.  The source's `matches` counter is
dead (never read) and is not carried. -/
def calculateRelevanceScore (content : List Char) (article : WikipediaArticle)
    (keyTerms : List (List Char)) : ℚ :=
  let contentLower := jsToLower content
  let articleText := jsToLower (article.title ++ [' '] ++ article.extract)
  let score1 : ℚ := keyTerms.foldl
    (fun acc term => if jsIncludes articleText (jsToLower term) then acc + 3/10 else acc) 0
  let score2 : ℚ :=
    if keyTerms.any (fun term => jsIncludes (jsToLower article.title) (jsToLower term))
    then score1 + 2/5 else score1
  let contentWords := (splitWs contentLower).filter (fun w => w.length > 3)
  let articleWords := (splitWs articleText).filter (fun w => w.length > 3)
  let commonWords := contentWords.filter (fun w => articleWords.contains w)
  let overlapRatio : ℚ := (commonWords.length : ℚ) / ((max contentWords.length 1 : ℕ) : ℚ)
  let score := score2 + overlapRatio * (3/10)
  min score 1

/-- The relevance-score formula exactly as the specification claim states
it: `min(1, 0.3*k + (0.4 if t else 0) + 0.3*r)`. -/
def specRelevanceScore (content : List Char) (article : WikipediaArticle)
    (keyTerms : List (List Char)) : ℚ :=
  let articleText := jsToLower (article.title ++ [' '] ++ article.extract)
  let k : ℕ := (keyTerms.filter (fun term => jsIncludes articleText (jsToLower term))).length
  let t : Bool := keyTerms.any (fun term => jsIncludes (jsToLower article.title) (jsToLower term))
  let contentWords := (splitWs (jsToLower content)).filter (fun w => w.length > 3)
  let articleWords := (splitWs articleText).filter (fun w => w.length > 3)
  let r : ℚ := ((contentWords.filter (fun w => articleWords.contains w)).length : ℚ) /
    ((max contentWords.length 1 : ℕ) : ℚ)
  min 1 (3/10 * k + (if t then 2/5 else 0) + 3/10 * r)

/-- The stop-word set of `extractKeyTerms` (source lines 281-285). -/
def stopWords : List (List Char) :=
  [("the").data, ("a").data, ("an").data, ("and").data, ("or").data, ("but").data,
   ("in").data, ("on").data, ("at").data, ("to").data, ("for").data, ("of").data,
   ("with").data, ("by").data,
   ("is").data, ("are").data, ("was").data, ("were").data, ("be").data, ("been").data,
   ("being").data, ("have").data, ("has").data, ("had").data, ("do").data, ("does").data,
   ("did").data,
   ("will").data, ("would").data, ("could").data, ("should").data, ("may").data,
   ("might").data, ("must").data, ("can").data, ("this").data, ("that").data,
   ("these").data, ("those").data]

/-- `topic ? topic + space + content : content` — note that the empty topic
string is falsy in JS. -/
def fullTextOf (content : List Char) (topic : Option (List Char)) : List Char :=
  match topic with
  | some t => if t.isEmpty then content else t ++ [' '] ++ content
  | none => content

/-- The word list `extractKeyTerms` splits the text into, before the
length/stop-word filter. -/
def rawTextWords (content : List Char) (topic : Option (List Char)) : List (List Char) :=
  splitWs (replaceNonWord (jsToLower (fullTextOf content topic)))

/-- The filtered word list of `extractKeyTerms` (length at least 2, not a
stop word). -/
def keyTermWords (content : List Char) (topic : Option (List Char)) : List (List Char) :=
  (rawTextWords content topic).filter
    (fun w => decide (2 ≤ w.length) && !(stopWords.contains w))

/-- Distinct words in first-occurrence order, mirroring JS `Map` insertion
order in the word-count loop. -/
def firstDedup (l : List (List Char)) : List (List Char) :=
  l.foldl (fun acc w => if acc.contains w then acc else acc ++ [w]) []

/-- Insert an entry into a list sorted by weakly decreasing count, after
all entries with a greater-or-equal count (this is the stable descending
order produced by JS `sort((a, b) => b[1] - a[1])`). -/
def insertCountDesc (x : List Char × ℕ) : List (List Char × ℕ) → List (List Char × ℕ)
  | [] => [x]
  | y :: ys => if x.2 ≤ y.2 then y :: insertCountDesc x ys else x :: y :: ys

/-- Stable sort by weakly decreasing count. -/
def sortCountDesc (l : List (List Char × ℕ)) : List (List Char × ℕ) :=
  l.foldl (fun acc x => insertCountDesc x acc) []

/-- `extractKeyTerms` from
`src/client/src/services/wikipediaService.ts` (lines 280-308): lowercase,
strip punctuation, split, filter short/stop words, count occurrences,
sort by frequency, keep the top three. -/
def extractKeyTerms (content : List Char) (topic : Option (List Char)) : List (List Char) :=
  let words := keyTermWords content topic
  let entries := (firstDedup words).map (fun w => (w, words.count w))
  ((sortCountDesc entries).take 3).map Prod.fst

/-- `cleanQuery` (source lines 347-353): strip punctuation, collapse
whitespace, trim, cap at 100 characters. -/
def cleanQuery (query : List Char) : List Char :=
  (jsTrim (replaceRuns Char.isWhitespace ' ' (replaceNonWord query))).take 100

/-- Worker for `stripTags`: the first argument, when present, holds the
characters (reversed) seen since an opening angle bracket that has not yet
been closed; they are restored verbatim when the input ends unclosed,
matching `replace(/<[^>]*>/g, <empty>)`. -/
def stripTagsGo : Option (List Char) → List Char → List Char
  | none, [] => []
  | some pending, [] => pending.reverse
  | none, c :: rest =>
    if c = '<' then stripTagsGo (some [c]) rest else c :: stripTagsGo none rest
  | some pending, c :: rest =>
    if c = '>' then stripTagsGo none rest else stripTagsGo (some (c :: pending)) rest

/-- `replace(/<[^>]*>/g, <empty>)`: delete HTML tags. -/
def stripTags (s : List Char) : List Char := stripTagsGo none s

/-- `replace(/&quot;/g, <a double quote>)`. -/
def replaceQuotEnt : List Char → List Char
  | '&' :: 'q' :: 'u' :: 'o' :: 't' :: ';' :: rest => '\"' :: replaceQuotEnt rest
  | c :: rest => c :: replaceQuotEnt rest
  | [] => []

/-- `replace(/&amp;/g, <ampersand>)`. -/
def replaceAmpEnt : List Char → List Char
  | '&' :: 'a' :: 'm' :: 'p' :: ';' :: rest => '&' :: replaceAmpEnt rest
  | c :: rest => c :: replaceAmpEnt rest
  | [] => []

/-- `replace(/&lt;/g, <less than>)`. -/
def replaceLtEnt : List Char → List Char
  | '&' :: 'l' :: 't' :: ';' :: rest => '<' :: replaceLtEnt rest
  | c :: rest => c :: replaceLtEnt rest
  | [] => []

/-- `replace(/&gt;/g, <greater than>)`. -/
def replaceGtEnt : List Char → List Char
  | '&' :: 'g' :: 't' :: ';' :: rest => '>' :: replaceGtEnt rest
  | c :: rest => c :: replaceGtEnt rest
  | [] => []

/-- `cleanSnippet` (source): strip tags, decode the four HTML entities in
the source's order, collapse whitespace, trim. -/
def cleanSnippet (snippet : List Char) : List Char :=
  jsTrim (replaceRuns Char.isWhitespace ' '
    (replaceGtEnt (replaceLtEnt (replaceAmpEnt (replaceQuotEnt (stripTags snippet))))))

/-- Search result as returned to callers of `searchArticles` (the
presentation-only `url` field is omitted). -/
structure WikipediaSearchResult where
  title : List Char
  snippet : List Char
  pageid : Int
deriving DecidableEq

/-- One entry of `data.query.search` in the MediaWiki search response. -/
structure RawSearchResult where
  title : List Char
  snippet : List Char
  pageid : Int
deriving DecidableEq

/-- The JSON payload of a search fetch: `ok` is `response.ok`; `search` is
`data.query.search` when both are present, `none` otherwise. -/
structure SearchResponse where
  ok : Bool
  search : Option (List RawSearchResult)
deriving DecidableEq

/-- The JSON payload of an article summary fetch; optional fields carry
the `|| <default>` fallbacks applied by `getArticle`. -/
structure ArticleData where
  title : List Char
  extract : Option (List Char)
  pageid : Int
  rev : Int
  sections : Option (List (List Char))
deriving DecidableEq

/-- Oracle environment for the network effects: `fetchSearch` and
`fetchArticle` return `.error` when the fetch or JSON decoding throws, and
`.ok none` (for articles) when the HTTP response is not ok; `interrupt`
models a runtime exception raised inside `factCheck`'s try block. -/
structure FetchEnv where
  fetchSearch : List Char → ℕ → Except Unit SearchResponse
  fetchArticle : List Char → Except Unit (Option ArticleData)
  interrupt : Bool

/-- `searchArticles` (source lines 141-176): a thrown error (`.error` or a
non-ok response, which the source turns into a throw) is caught and
yields `[]`; a missing `data.query.search` yields `[]`; otherwise the raw
results are mapped with `cleanSnippet`. -/
def searchArticles (env : FetchEnv) (query : List Char) (limit : ℕ) :
    List WikipediaSearchResult :=
  match env.fetchSearch (cleanQuery query) limit with
  | .error _ => []
  | .ok resp =>
    if !resp.ok then []
    else
      match resp.search with
      | none => []
      | some results =>
        results.map (fun r =>
          { title := r.title, snippet := cleanSnippet r.snippet, pageid := r.pageid })

/-- `getArticle` (source lines 181-204): spaces in the title collapse to
underscores; a non-ok response or a thrown error yields `null`. -/
def getArticle (env : FetchEnv) (title : List Char) : Option WikipediaArticle :=
  match env.fetchArticle (replaceRuns Char.isWhitespace '_' title) with
  | .error _ => none
  | .ok none => none
  | .ok (some d) =>
    some { title := d.title, extract := d.extract.getD [], pageid := d.pageid,
           lastrevid := d.rev, sections := d.sections.getD [] }

/-- The three confidence levels of a `FactCheckResult`. -/
inductive Confidence
  | high
  | medium
  | low
deriving DecidableEq

/-- `FactCheckResult`; `article`/`searchResults` are `none` on branches
where the source omits them. -/
structure FactCheckResult where
  query : List Char
  found : Bool
  article : Option WikipediaArticle
  searchResults : Option (List WikipediaSearchResult)
  confidence : Confidence
  relevanceScore : ℚ
deriving DecidableEq

/-- `factCheck` (source lines 209-275): extract key terms, search on the
first term with limit 3, fetch the first result's article, score it; each
failing stage short-circuits with `found = false`. -/
def factCheck (env : FetchEnv) (content : List Char) (topic : Option (List Char)) :
    FactCheckResult :=
  if env.interrupt then
    { query := content, found := false, article := none, searchResults := none,
      confidence := .low, relevanceScore := 0 }
  else
    match extractKeyTerms content topic with
    | [] =>
      { query := content, found := false, article := none, searchResults := none,
        confidence := .low, relevanceScore := 0 }
    | primaryTerm :: restTerms =>
      let keyTerms := primaryTerm :: restTerms
      match searchArticles env primaryTerm 3 with
      | [] =>
        { query := content, found := false, article := none, searchResults := none,
          confidence := .low, relevanceScore := 0 }
      | bestMatch :: moreResults =>
        let results := bestMatch :: moreResults
        match getArticle env bestMatch.title with
        | none =>
          { query := content, found := false, article := none,
            searchResults := some results, confidence := .low, relevanceScore := 3/10 }
        | some article =>
          let relevanceScore := calculateRelevanceScore content article keyTerms
          let confidence : Confidence :=
            if relevanceScore > 7/10 then .high
            else if relevanceScore > 2/5 then .medium
            else .low
          { query := content, found := true, article := some article,
            searchResults := some results, confidence := confidence,
            relevanceScore := relevanceScore }

/-- The fields of the `WikipediaService` class instance: two readonly URL
strings; this is the only instance state the service carries. -/
structure WikipediaServiceState where
  baseUrl : List Char
  searchUrl : List Char

/-- `extractKeyTerms` as an instance method (reads no instance state). -/
def serviceExtractKeyTerms (self : WikipediaServiceState) (content : List Char)
    (topic : Option (List Char)) : List (List Char) :=
  extractKeyTerms content topic

/-- `calculateRelevanceScore` as an instance method (reads no instance
state). -/
def serviceCalculateRelevanceScore (self : WikipediaServiceState) (content : List Char)
    (article : WikipediaArticle) (keyTerms : List (List Char)) : ℚ :=
  calculateRelevanceScore content article keyTerms

/-- `cleanQuery` as an instance method (reads no instance state). -/
def serviceCleanQuery (self : WikipediaServiceState) (query : List Char) : List Char :=
  cleanQuery query

/-- The localStorage persistence surface of the score service, modelled as
the parsed `quiz_scores` map: quiz id to stored score array. -/
abbrev ScoreMap : Type := List Char → Option (List ℚ)

/-- `ScoreStats` record of the score service. -/
structure ScoreStats where
  averageScore : ℚ
  totalAttempts : ℕ
  bestScore : ℚ
  worstScore : ℚ
  recentScores : List ℚ
deriving DecidableEq

/-- JS `Math.round`: round half toward positive infinity. -/
def jsRound (x : ℚ) : ℤ := ⌊x + 1/2⌋

/-- `Math.round(x * 10) / 10`: round to one decimal place. -/
def round1 (x : ℚ) : ℚ := ((jsRound (x * 10) : ℤ) : ℚ) / 10

/-- `Math.max(...scores)` over a score array (call sites pass non-empty
arrays). -/
def listMax : List ℚ → ℚ
  | [] => 0
  | x :: xs => xs.foldl max x

/-- `Math.min(...scores)` over a score array (call sites pass non-empty
arrays). -/
def listMin : List ℚ → ℚ
  | [] => 0
  | x :: xs => xs.foldl min x

/-- The statistics block computed identically by `calculateAverageScore`
and `getScoreStats` (source `src/unnamed/part_003`): reduce-sum average
rounded to one decimal, best, worst, attempt count, last five scores. -/
def statsOf (scores : List ℚ) : ScoreStats :=
  { averageScore := round1 ((scores.foldl (· + ·) 0) / (scores.length : ℚ)),
    totalAttempts := scores.length,
    bestScore := listMax scores,
    worstScore := listMin scores,
    recentScores := scores.drop (scores.length - 5) }

/-- `calculateAverageScore` (source lines 22-46): append the new score to
the quiz's stored array, persist, and return the statistics of the updated
array; returns the stats together with the updated store. -/
def calculateAverageScore (m : ScoreMap) (quizId : List Char) (newScore : ℚ) :
    ScoreStats × ScoreMap :=
  let quizScores := (m quizId).getD []
  let updatedScores := quizScores ++ [newScore]
  (statsOf updatedScores, fun k => if k = quizId then some updatedScores else m k)

/-- `getScoreStats` (source lines 51-71): `null` when no array is stored
or it is empty, otherwise the statistics of the stored array. -/
def getScoreStats (m : ScoreMap) (quizId : List Char) : Option ScoreStats :=
  match m quizId with
  | none => none
  | some quizScores =>
    if quizScores.length = 0 then none else some (statsOf quizScores)

/-- Specification-side reading of the statistics block: mean rounded to
one decimal, maximum, minimum, attempt count, and `recentScores` a suffix
holding the last `min 5 length` entries in order. -/
def StatsSpec (arr : List ℚ) (st : ScoreStats) : Prop :=
  st.averageScore = round1 (arr.sum / (arr.length : ℚ)) ∧
  st.totalAttempts = arr.length ∧
  st.bestScore ∈ arr ∧ (∀ x ∈ arr, x ≤ st.bestScore) ∧
  st.worstScore ∈ arr ∧ (∀ x ∈ arr, st.worstScore ≤ x) ∧
  st.recentScores.length = min 5 arr.length ∧
  arr = arr.take (arr.length - 5) ++ st.recentScores

/-- The fact-indicator phrases of `extractKeyFacts`
(`src/unnamed/part_000` lines 196-213). -/
def keyIndicators : List (List Char) :=
  [("is a").data, ("are a").data, ("is the").data, ("are the").data, ("was").data,
   ("were").data, ("has").data, ("have").data, ("can").data, ("cannot").data,
   ("includes").data, ("consists of").data, ("refers to").data, ("means").data,
   ("defined as").data, ("known as").data]

/-- Sentence terminators of `extractKeyFacts` (`split(/[.!?]+/)`). -/
def isSentenceEnd (c : Char) : Bool := c == '.' || c == '!' || c == '?'

/-- `extractKeyFacts` (`src/unnamed/part_000` lines 192-222): split into
sentences, keep those longer than 20 characters once trimmed that contain
an indicator phrase (lowercased), cap at 8, trim. -/
def extractKeyFacts (text : List Char) : List (List Char) :=
  let sentences := (splitRuns isSentenceEnd text).filter
    (fun s => decide (20 < (jsTrim s).length))
  (((sentences.filter
      (fun s => keyIndicators.any (fun ind => jsIncludes (jsToLower s) ind))).take 8).map jsTrim)

lemma foldl_score_eq (p : List Char → Bool) (l : List (List Char)) (init : ℚ) :
    l.foldl (fun acc term => if p term then acc + 3/10 else acc) init
      = init + 3/10 * ((l.filter p).length : ℚ) := by
  induction l generalizing init with
  | nil => simp
  | cons x xs ih =>
    by_cases h : p x
    · simp only [List.foldl_cons, List.filter_cons, h, if_pos, ih]
      push_cast [List.length_cons]
      ring
    · simp only [List.foldl_cons, List.filter_cons, h, if_neg, ih]
      simp [h]

lemma mem_insertCountDesc {z x : List Char × ℕ} {l : List (List Char × ℕ)} :
    z ∈ insertCountDesc x l ↔ z = x ∨ z ∈ l := by
  induction l with
  | nil => simp [insertCountDesc]
  | cons y ys ih =>
    by_cases h : x.2 ≤ y.2
    · simp only [insertCountDesc, if_pos h, List.mem_cons, ih]
      tauto
    · simp only [insertCountDesc, if_neg h, List.mem_cons]

lemma pairwise_insertCountDesc {x : List Char × ℕ} {l : List (List Char × ℕ)}
    (hl : l.Pairwise (fun a b => b.2 ≤ a.2)) :
    (insertCountDesc x l).Pairwise (fun a b => b.2 ≤ a.2) := by
  induction l with
  | nil => simp [insertCountDesc]
  | cons y ys ih =>
    rcases List.pairwise_cons.1 hl with ⟨hy, hys⟩
    by_cases h : x.2 ≤ y.2
    · simp only [insertCountDesc, if_pos h]
      refine List.pairwise_cons.2 ⟨?_, ih hys⟩
      intro z hz
      rcases mem_insertCountDesc.1 hz with rfl | hz
      · exact h
      · exact hy z hz
    · simp only [insertCountDesc, if_neg h]
      refine List.pairwise_cons.2 ⟨?_, hl⟩
      intro z hz
      rcases List.mem_cons.1 hz with rfl | hz
      · exact le_of_not_le h
      · exact le_trans (hy z hz) (le_of_not_le h)

lemma mem_foldl_insertCountDesc {z : List Char × ℕ} :
    ∀ (l acc : List (List Char × ℕ)),
      z ∈ l.foldl (fun acc x => insertCountDesc x acc) acc → z ∈ l ∨ z ∈ acc := by
  intro l
  induction l with
  | nil => intro acc h; exact Or.inr h
  | cons x xs ih =>
    intro acc h
    simp only [List.foldl_cons] at h
    rcases ih (insertCountDesc x acc) h with h1 | h2
    · exact Or.inl (List.mem_cons_of_mem x h1)
    · rcases mem_insertCountDesc.1 h2 with rfl | h3
      · exact Or.inl (List.mem_cons_self z xs)
      · exact Or.inr h3

lemma mem_sortCountDesc {z : List Char × ℕ} {l : List (List Char × ℕ)}
    (h : z ∈ sortCountDesc l) : z ∈ l := by
  rcases mem_foldl_insertCountDesc l [] h with h1 | h2
  · exact h1
  · cases h2

lemma pairwise_foldl_insertCountDesc :
    ∀ (l acc : List (List Char × ℕ)), acc.Pairwise (fun a b => b.2 ≤ a.2) →
      (l.foldl (fun acc x => insertCountDesc x acc) acc).Pairwise (fun a b => b.2 ≤ a.2) := by
  intro l
  induction l with
  | nil => intro acc h; exact h
  | cons x xs ih =>
    intro acc h
    simp only [List.foldl_cons]
    exact ih (insertCountDesc x acc) (pairwise_insertCountDesc h)

lemma pairwise_sortCountDesc (l : List (List Char × ℕ)) :
    (sortCountDesc l).Pairwise (fun a b => b.2 ≤ a.2) :=
  pairwise_foldl_insertCountDesc l [] (List.Pairwise.nil)

lemma mem_foldl_firstDedup {z : List Char} :
    ∀ (l acc : List (List Char)),
      z ∈ l.foldl (fun acc w => if acc.contains w then acc else acc ++ [w]) acc →
      z ∈ l ∨ z ∈ acc := by
  intro l
  induction l with
  | nil => intro acc h; exact Or.inr h
  | cons w ws ih =>
    intro acc h
    simp only [List.foldl_cons] at h
    rcases ih _ h with h1 | h2
    · exact Or.inl (List.mem_cons_of_mem w h1)
    · by_cases hc : acc.contains w
      · rw [if_pos hc] at h2
        exact Or.inr h2
      · rw [if_neg hc] at h2
        rcases List.mem_append.1 h2 with h3 | h3
        · exact Or.inr h3
        · simp only [List.mem_singleton] at h3
          exact Or.inl (h3 ▸ List.mem_cons_self w ws)

lemma mem_firstDedup {z : List Char} {l : List (List Char)}
    (h : z ∈ firstDedup l) : z ∈ l := by
  rcases mem_foldl_firstDedup l [] h with h1 | h2
  · exact h1
  · cases h2

lemma foldl_add_eq_sum (l : List ℚ) : ∀ init : ℚ, l.foldl (· + ·) init = init + l.sum := by
  induction l with
  | nil => intro init; simp
  | cons x xs ih =>
    intro init
    simp only [List.foldl_cons, List.sum_cons, ih]
    ring

lemma le_foldl_max (x : ℚ) (xs : List ℚ) : x ≤ xs.foldl max x := by
  induction xs generalizing x with
  | nil => simp
  | cons y ys ih =>
    simp only [List.foldl_cons]
    exact le_trans (le_max_left x y) (ih (max x y))

lemma mem_foldl_max (x : ℚ) (xs : List ℚ) : xs.foldl max x ∈ x :: xs := by
  induction xs generalizing x with
  | nil => simp
  | cons y ys ih =>
    simp only [List.foldl_cons]
    rcases List.mem_cons.1 (ih (max x y)) with h | h
    · rcases max_choice x y with h1 | h1 <;> rw [h, h1] <;> simp
    · simp [h]

lemma mem_le_foldl_max {a : ℚ} {xs : List ℚ} (x : ℚ) (ha : a ∈ xs) :
    a ≤ xs.foldl max x := by
  induction xs generalizing x with
  | nil => cases ha
  | cons y ys ih =>
    simp only [List.foldl_cons]
    rcases List.mem_cons.1 ha with rfl | h
    · exact le_trans (le_max_right x a) (le_foldl_max _ _)
    · exact ih _ h

lemma foldl_min_le (x : ℚ) (xs : List ℚ) : xs.foldl min x ≤ x := by
  induction xs generalizing x with
  | nil => simp
  | cons y ys ih =>
    simp only [List.foldl_cons]
    exact le_trans (ih (min x y)) (min_le_left x y)

lemma mem_foldl_min (x : ℚ) (xs : List ℚ) : xs.foldl min x ∈ x :: xs := by
  induction xs generalizing x with
  | nil => simp
  | cons y ys ih =>
    simp only [List.foldl_cons]
    rcases List.mem_cons.1 (ih (min x y)) with h | h
    · rcases min_choice x y with h1 | h1 <;> rw [h, h1] <;> simp
    · simp [h]

lemma foldl_min_le_mem {a : ℚ} {xs : List ℚ} (x : ℚ) (ha : a ∈ xs) :
    xs.foldl min x ≤ a := by
  induction xs generalizing x with
  | nil => cases ha
  | cons y ys ih =>
    simp only [List.foldl_cons]
    rcases List.mem_cons.1 ha with rfl | h
    · exact le_trans (foldl_min_le _ _) (min_le_right x a)
    · exact ih _ h

/-- Normal form of `calculateRelevanceScore`, shared by several proofs. -/
lemma calculateRelevanceScore_eq (content : List Char) (article : WikipediaArticle)
    (keyTerms : List (List Char)) :
    calculateRelevanceScore content article keyTerms
      = specRelevanceScore content article keyTerms := by
  unfold calculateRelevanceScore specRelevanceScore
  simp only [foldl_score_eq]
  by_cases h : keyTerms.any
      (fun term => jsIncludes (jsToLower article.title) (jsToLower term))
  · simp only [h, if_pos]
    rw [min_comm]
    ring_nf
  · simp only [h, Bool.false_eq_true, if_neg, not_false_iff]
    rw [min_comm]
    ring_nf

lemma keyTermEntry_spec {content : List Char} {topic : Option (List Char)}
    {p : List Char × ℕ}
    (hp : p ∈ sortCountDesc ((firstDedup (keyTermWords content topic)).map
      (fun w => (w, (keyTermWords content topic).count w)))) :
    p.2 = (rawTextWords content topic).count p.1 ∧
    2 ≤ p.1.length ∧ p.1 ∉ stopWords ∧ p.1 ∈ rawTextWords content topic := by
  rcases List.mem_map.1 (mem_sortCountDesc hp) with ⟨w, hw, rfl⟩
  have hwW : w ∈ keyTermWords content topic := mem_firstDedup hw
  have hfilter := hwW
  simp only [keyTermWords, List.mem_filter] at hfilter
  rcases hfilter with ⟨hraw, hpred⟩
  simp only [Bool.and_eq_true, decide_eq_true_eq, Bool.not_eq_true'] at hpred
  rcases hpred with ⟨hlen, hstop⟩
  have hnot : w ∉ stopWords := by
    intro hmem
    have htrue : stopWords.contains w = true := by
      simp only [List.contains]
      exact List.elem_iff.2 hmem
    rw [htrue] at hstop
    cases hstop
  refine ⟨?_, hlen, hnot, hraw⟩
  simp only [keyTermWords]
  exact List.count_filter (by simp [hlen, hstop, hnot])

/-- C3: `extractKeyTerms` returns at most 3 terms; each has length at
least 2, is not a stop word, and occurs among the words of the lowercased,
depunctuated, whitespace-split text; the terms are ordered by
non-increasing occurrence count in that word list. -/
theorem extractKeyTerms_spec (content : List Char) (topic : Option (List Char)) :
    (extractKeyTerms content topic).length ≤ 3 ∧
    (∀ w ∈ extractKeyTerms content topic,
      2 ≤ w.length ∧ w ∉ stopWords ∧ w ∈ rawTextWords content topic) ∧
    (extractKeyTerms content topic).Pairwise
      (fun a b => (rawTextWords content topic).count b
        ≤ (rawTextWords content topic).count a) := by
  refine ⟨?_, ?_, ?_⟩
  · simp only [extractKeyTerms, List.length_map, List.length_take]
    exact min_le_left _ _
  · intro w hw
    simp only [extractKeyTerms] at hw
    rcases List.mem_map.1 hw with ⟨p, hp, rfl⟩
    have h := keyTermEntry_spec (List.take_subset _ _ hp)
    exact ⟨h.2.1, h.2.2.1, h.2.2.2⟩
  · simp only [extractKeyTerms]
    rw [List.pairwise_map]
    have hS := pairwise_sortCountDesc ((firstDedup (keyTermWords content topic)).map
      (fun w => (w, (keyTermWords content topic).count w)))
    have hT : (List.take 3 (sortCountDesc ((firstDedup (keyTermWords content topic)).map
        (fun w => (w, (keyTermWords content topic).count w))))).Pairwise
        (fun a b => b.2 ≤ a.2) :=
      List.Pairwise.sublist (List.take_sublist 3 _) hS
    refine List.Pairwise.imp_of_mem ?_ hT
    intro p q hp hq hle
    have h1 := keyTermEntry_spec (List.take_subset _ _ hp)
    have h2 := keyTermEntry_spec (List.take_subset _ _ hq)
    rw [← h1.1, ← h2.1]
    exact hle

/-- Witness for C3: the term `cats` is returned on a concrete input and
satisfies the stated properties. -/
theorem extractKeyTerms_spec_witness :
    2 ≤ (("cats").data).length ∧ (("cats").data) ∉ stopWords ∧
      (("cats").data) ∈ rawTextWords (("cats cats dogs fish the").data) none :=
  (extractKeyTerms_spec (("cats cats dogs fish the").data) none).2.1
    (("cats").data) (by decide)

/-- C1: `calculateRelevanceScore` always returns a value in the closed
interval [0, 1]. -/
theorem calculateRelevanceScore_bounded (content : List Char)
    (article : WikipediaArticle) (keyTerms : List (List Char)) :
    0 ≤ calculateRelevanceScore content article keyTerms ∧
    calculateRelevanceScore content article keyTerms ≤ 1 := by
  rw [calculateRelevanceScore_eq]
  simp only [specRelevanceScore]
  constructor
  · refine le_min (by norm_num) ?_
    refine add_nonneg (add_nonneg (by positivity) ?_) (by positivity)
    split <;> norm_num
  · exact min_le_left _ _

/-- C2: `calculateRelevanceScore` equals the claimed closed formula
`min(1, 0.3*k + (0.4 if t else 0) + 0.3*r)` with `k`, `t`, `r` as defined
by `specRelevanceScore`. -/
theorem calculateRelevanceScore_formula (content : List Char)
    (article : WikipediaArticle) (keyTerms : List (List Char)) :
    calculateRelevanceScore content article keyTerms
      = specRelevanceScore content article keyTerms :=
  calculateRelevanceScore_eq content article keyTerms

/-- C8: the pure pipeline stages read no instance state — their method
forms agree across any two service states — and, as Lean functions, they
return equal outputs on equal inputs. -/
theorem pipeline_stages_stateless (s1 s2 : WikipediaServiceState)
    (content : List Char) (topic : Option (List Char)) (article : WikipediaArticle)
    (keyTerms : List (List Char)) (query : List Char) :
    serviceExtractKeyTerms s1 content topic = serviceExtractKeyTerms s2 content topic ∧
    serviceCalculateRelevanceScore s1 content article keyTerms
      = serviceCalculateRelevanceScore s2 content article keyTerms ∧
    serviceCleanQuery s1 query = serviceCleanQuery s2 query :=
  ⟨rfl, rfl, rfl⟩

/-- C10: `calculateAverageScore` updates the store only at the given quiz
id, appending the new score to the previously stored array (the singleton
when none was stored); every other key is unchanged. -/
theorem calculateAverageScore_frame (m : ScoreMap) (q : List Char) (s : ℚ) :
    (calculateAverageScore m q s).2 q = some ((m q).getD [] ++ [s]) ∧
    ∀ k : List Char, k ≠ q → (calculateAverageScore m q s).2 k = m k := by
  constructor
  · simp [calculateAverageScore]
  · intro k hk
    simp [calculateAverageScore, hk]

/-- A concrete score store for the frame witness. -/
def scoreMapA : ScoreMap := fun k => if k = ("quiz1").data then some [1, 2] else none

/-- Witness for C10: updating `quiz1` leaves `quiz2` untouched. -/
theorem calculateAverageScore_frame_witness :
    (calculateAverageScore scoreMapA (("quiz1").data) 3).2 (("quiz2").data)
      = scoreMapA (("quiz2").data) :=
  (calculateAverageScore_frame scoreMapA (("quiz1").data) 3).2 (("quiz2").data) (by decide)

lemma statsOf_spec {arr : List ℚ} (h : arr ≠ []) : StatsSpec arr (statsOf arr) := by
  obtain ⟨x, xs, rfl⟩ := List.exists_cons_of_ne_nil h
  refine ⟨?_, rfl, ?_, ?_, ?_, ?_, ?_, ?_⟩
  · simp only [statsOf, foldl_add_eq_sum, zero_add]
  · simpa [statsOf, listMax] using mem_foldl_max x xs
  · intro y hy
    rcases List.mem_cons.1 hy with rfl | hy
    · simpa [statsOf, listMax] using le_foldl_max y xs
    · simpa [statsOf, listMax] using mem_le_foldl_max x hy
  · simpa [statsOf, listMin] using mem_foldl_min x xs
  · intro y hy
    rcases List.mem_cons.1 hy with rfl | hy
    · simpa [statsOf, listMin] using foldl_min_le y xs
    · simpa [statsOf, listMin] using foldl_min_le_mem x hy
  · simp only [statsOf]
    rw [List.length_drop]
    omega
  · simp only [statsOf]
    exact (List.take_append_drop _ _).symm

lemma getScoreStats_eq_none_iff (m : ScoreMap) (q : List Char) :
    getScoreStats m q = none ↔ (m q = none ∨ m q = some []) := by
  unfold getScoreStats
  cases hmq : m q with
  | none => simp
  | some arr =>
    by_cases h : arr.length = 0
    · rw [List.length_eq_zero] at h
      subst h
      simp
    · have hne : arr ≠ [] := fun hh => h (by rw [hh]; rfl)
      simp [h, hne]

/-- C6: with a non-empty stored array, `getScoreStats` returns the
rounded mean, the maximum, the minimum, the attempt count, and the last
five scores in order; it returns null exactly when no array or an empty
array is stored; and `calculateAverageScore` returns the same statistics
computed over the previous array with the new score appended. -/
theorem scoreStats_spec :
    (∀ (m : ScoreMap) (q : List Char) (arr : List ℚ), m q = some arr → arr ≠ [] →
      ∃ st, getScoreStats m q = some st ∧ StatsSpec arr st) ∧
    (∀ (m : ScoreMap) (q : List Char),
      getScoreStats m q = none ↔ (m q = none ∨ m q = some [])) ∧
    (∀ (m : ScoreMap) (q : List Char) (s : ℚ),
      StatsSpec ((m q).getD [] ++ [s]) (calculateAverageScore m q s).1) := by
  refine ⟨?_, getScoreStats_eq_none_iff, ?_⟩
  · intro m q arr hmq hne
    refine ⟨statsOf arr, ?_, statsOf_spec hne⟩
    unfold getScoreStats
    rw [hmq]
    have hlen : ¬arr.length = 0 := by simpa [List.length_eq_zero] using hne
    simp [hlen]
  · intro m q s
    have h1 : (calculateAverageScore m q s).1 = statsOf ((m q).getD [] ++ [s]) := rfl
    rw [h1]
    exact statsOf_spec (by simp)

/-- A concrete score store for the statistics witness. -/
def scoreMapB : ScoreMap := fun k => if k = ("quiz1").data then some [1, 2] else none

/-- Witness for C6 at a concrete store with a non-empty array. -/
theorem scoreStats_spec_witness :
    ∃ st, getScoreStats scoreMapB (("quiz1").data) = some st ∧ StatsSpec [1, 2] st :=
  scoreStats_spec.1 scoreMapB (("quiz1").data) [1, 2] rfl (by decide)

/-- C9: `extractKeyFacts` returns at most 8 facts, each the trimmed form
of a sentence of the input (split at the three sentence terminators) whose
trimmed length exceeds 20 characters and which contains an indicator
phrase after lowercasing. -/
theorem extractKeyFacts_spec (text : List Char) :
    (extractKeyFacts text).length ≤ 8 ∧
    ∀ f ∈ extractKeyFacts text, ∃ s ∈ splitRuns isSentenceEnd text,
      f = jsTrim s ∧ 20 < (jsTrim s).length ∧
      keyIndicators.any (fun ind => jsIncludes (jsToLower s) ind) = true := by
  constructor
  · simp only [extractKeyFacts, List.length_map, List.length_take]
    exact min_le_left _ _
  · intro f hf
    simp only [extractKeyFacts] at hf
    rcases List.mem_map.1 hf with ⟨s, hs, rfl⟩
    have hs' := List.take_subset _ _ hs
    rw [List.mem_filter] at hs'
    rcases hs' with ⟨hs1, hind⟩
    rw [List.mem_filter] at hs1
    rcases hs1 with ⟨hsplit, hlen⟩
    exact ⟨s, hsplit, rfl, of_decide_eq_true hlen, hind⟩

/-- A concrete article text for the key-facts witness. -/
def factText : List Char := ("Lean is a theorem prover for mathematics. Ok.").data

/-- Witness for C9: a concrete fact extracted from a concrete text. -/
theorem extractKeyFacts_spec_witness :
    ∃ s ∈ splitRuns isSentenceEnd factText,
      ("Lean is a theorem prover for mathematics").data = jsTrim s ∧
      20 < (jsTrim s).length ∧
      keyIndicators.any (fun ind => jsIncludes (jsToLower s) ind) = true :=
  (extractKeyFacts_spec factText).2
    (("Lean is a theorem prover for mathematics").data) (by decide)

lemma confidence_iff (s : ℚ) :
    ((if s > 7/10 then Confidence.high else if s > 2/5 then Confidence.medium
        else Confidence.low) = Confidence.high ↔ s > 7/10) ∧
    ((if s > 7/10 then Confidence.high else if s > 2/5 then Confidence.medium
        else Confidence.low) = Confidence.medium ↔ (2/5 < s ∧ s ≤ 7/10)) ∧
    ((if s > 7/10 then Confidence.high else if s > 2/5 then Confidence.medium
        else Confidence.low) = Confidence.low ↔ s ≤ 2/5) := by
  by_cases h1 : s > 7/10
  · simp only [if_pos h1]
    refine ⟨by simp [h1], ?_, ?_⟩
    · exact ⟨fun h => Confidence.noConfusion h, fun hh => absurd h1 (not_lt.2 hh.2)⟩
    · exact ⟨fun h => Confidence.noConfusion h,
        fun hh => absurd h1 (not_lt.2 (hh.trans (by norm_num)))⟩
  · by_cases h2 : s > 2/5
    · simp only [if_neg h1, if_pos h2]
      exact ⟨⟨fun h => Confidence.noConfusion h, fun hh => absurd hh h1⟩,
        ⟨fun _ => ⟨h2, not_lt.1 h1⟩, fun _ => by trivial⟩,
        ⟨fun h => Confidence.noConfusion h, fun hh => absurd h2 (not_lt.2 hh)⟩⟩
    · simp only [if_neg h1, if_neg h2]
      exact ⟨⟨fun h => Confidence.noConfusion h, fun hh => absurd hh h1⟩,
        ⟨fun h => Confidence.noConfusion h, fun hh => absurd hh.1 h2⟩,
        ⟨fun _ => not_lt.1 h2, fun _ => by trivial⟩⟩

lemma factCheck_shape (env : FetchEnv) (content : List Char)
    (topic : Option (List Char)) :
    ((factCheck env content topic).confidence = Confidence.low ∧
      (factCheck env content topic).relevanceScore = 0 ∧
      (factCheck env content topic).found = false) ∨
    ((factCheck env content topic).confidence = Confidence.low ∧
      (factCheck env content topic).relevanceScore = 3/10 ∧
      (factCheck env content topic).found = false) ∨
    ((factCheck env content topic).found = true ∧
      (factCheck env content topic).confidence =
        (if (factCheck env content topic).relevanceScore > 7/10 then Confidence.high
         else if (factCheck env content topic).relevanceScore > 2/5 then Confidence.medium
         else Confidence.low)) := by
  by_cases hI : env.interrupt = true
  · simp [factCheck, hI]
  · cases hK : extractKeyTerms content topic with
    | nil => simp [factCheck, hI, hK]
    | cons kt kts =>
      cases hS : searchArticles env kt 3 with
      | nil => simp [factCheck, hI, hK, hS]
      | cons r rs =>
        cases hA : getArticle env r.title with
        | none => simp [factCheck, hI, hK, hS, hA]
        | some article => simp [factCheck, hI, hK, hS, hA]

/-- C7: on every branch of `factCheck`, confidence is high exactly when
the relevance score exceeds 0.7, medium exactly when it lies in (0.4,
0.7], low exactly when it is at most 0.4; every not-found result has low
confidence. -/
theorem factCheck_confidence_inv (env : FetchEnv) (content : List Char)
    (topic : Option (List Char)) :
    ((factCheck env content topic).confidence = Confidence.high ↔
      (factCheck env content topic).relevanceScore > 7/10) ∧
    ((factCheck env content topic).confidence = Confidence.medium ↔
      (2/5 < (factCheck env content topic).relevanceScore ∧
        (factCheck env content topic).relevanceScore ≤ 7/10)) ∧
    ((factCheck env content topic).confidence = Confidence.low ↔
      (factCheck env content topic).relevanceScore ≤ 2/5) ∧
    ((factCheck env content topic).found = false →
      (factCheck env content topic).confidence = Confidence.low) := by
  rcases factCheck_shape env content topic with ⟨hc, hs, hf⟩ | ⟨hc, hs, hf⟩ | ⟨hf, hc⟩
  · rw [hc, hs]
    refine ⟨⟨fun h => Confidence.noConfusion h, fun hh => absurd hh (by norm_num)⟩,
      ⟨fun h => Confidence.noConfusion h, fun hh => absurd hh.1 (by norm_num)⟩,
      ⟨fun _ => by norm_num, fun _ => rfl⟩, fun _ => rfl⟩
  · rw [hc, hs]
    refine ⟨⟨fun h => Confidence.noConfusion h, fun hh => absurd hh (by norm_num)⟩,
      ⟨fun h => Confidence.noConfusion h, fun hh => absurd hh.1 (by norm_num)⟩,
      ⟨fun _ => by norm_num, fun _ => rfl⟩, fun _ => rfl⟩
  · rw [hc]
    refine ⟨(confidence_iff _).1, (confidence_iff _).2.1, (confidence_iff _).2.2, ?_⟩
    intro hfound
    rw [hf] at hfound
    cases hfound

/-- An environment whose try block raises at once. -/
def envInterrupt : FetchEnv :=
  { fetchSearch := fun _ _ => Except.error (),
    fetchArticle := fun _ => Except.error (),
    interrupt := true }

/-- Witness for C7: a concrete not-found result has low confidence. -/
theorem factCheck_confidence_inv_witness :
    (factCheck envInterrupt (("cats").data) none).confidence = Confidence.low :=
  (factCheck_confidence_inv envInterrupt (("cats").data) none).2.2.2 rfl

/-- An environment whose search succeeds with one result but whose article
fetch yields no article. -/
def envArticleFail : FetchEnv :=
  { fetchSearch := fun _ _ => Except.ok
      { ok := true,
        search := some [{ title := ("Cats").data, snippet := ("x").data, pageid := 1 }] },
    fetchArticle := fun _ => Except.ok none,
    interrupt := false }

/-- C4 counterexample: when the article fetch returns no article,
`factCheck` reports `found = false` with `relevanceScore = 0.3`, not 0 as
the claim states. -/
theorem factCheck_articleFail_score :
    (factCheck envArticleFail (("cats cats").data) none).found = false ∧
    (factCheck envArticleFail (("cats cats").data) none).relevanceScore = 3/10 ∧
    (factCheck envArticleFail (("cats cats").data) none).relevanceScore ≠ 0 := by
  have h : (factCheck envArticleFail (("cats cats").data) none).relevanceScore = 3/10 := rfl
  refine ⟨rfl, h, ?_⟩
  rw [h]
  norm_num

/-- C4 (amended): each failing stage of `factCheck` returns `found =
false`, with `relevanceScore = 0` on the exception, no-key-terms and
empty-search branches and `relevanceScore = 0.3` (with the search results
attached) on the article-fetch-failure branch; `searchArticles` returns
the empty list on a thrown fetch, a non-ok response, or a missing search
payload. -/
theorem factCheck_failure_fallbacks (env : FetchEnv) (content : List Char)
    (topic : Option (List Char)) :
    (env.interrupt = true → factCheck env content topic =
      { query := content, found := false, article := none, searchResults := none,
        confidence := Confidence.low, relevanceScore := 0 }) ∧
    (env.interrupt = false → extractKeyTerms content topic = [] →
      factCheck env content topic =
      { query := content, found := false, article := none, searchResults := none,
        confidence := Confidence.low, relevanceScore := 0 }) ∧
    (∀ kt kts, env.interrupt = false → extractKeyTerms content topic = kt :: kts →
      searchArticles env kt 3 = [] → factCheck env content topic =
      { query := content, found := false, article := none, searchResults := none,
        confidence := Confidence.low, relevanceScore := 0 }) ∧
    (∀ kt kts r rs, env.interrupt = false → extractKeyTerms content topic = kt :: kts →
      searchArticles env kt 3 = r :: rs → getArticle env r.title = none →
      factCheck env content topic =
      { query := content, found := false, article := none,
        searchResults := some (r :: rs), confidence := Confidence.low,
        relevanceScore := 3/10 }) ∧
    (∀ q lim, env.fetchSearch (cleanQuery q) lim = Except.error () →
      searchArticles env q lim = []) ∧
    (∀ q lim resp, env.fetchSearch (cleanQuery q) lim = Except.ok resp →
      resp.ok = false → searchArticles env q lim = []) ∧
    (∀ q lim resp, env.fetchSearch (cleanQuery q) lim = Except.ok resp →
      resp.search = none → searchArticles env q lim = []) := by
  refine ⟨?_, ?_, ?_, ?_, ?_, ?_, ?_⟩
  · intro hI
    simp [factCheck, hI]
  · intro hI hK
    simp [factCheck, hI, hK]
  · intro kt kts hI hK hS
    simp [factCheck, hI, hK, hS]
  · intro kt kts r rs hI hK hS hA
    simp [factCheck, hI, hK, hS, hA]
  · intro q lim h
    simp [searchArticles, h]
  · intro q lim resp h hok
    simp [searchArticles, h, hok]
  · intro q lim resp h hsearch
    simp [searchArticles, h, hsearch]

/-- Witness for the amended C4: the interrupt fallback at a concrete
environment and input. -/
theorem factCheck_failure_fallbacks_witness :
    factCheck envInterrupt (("cats").data) none =
      { query := ("cats").data, found := false, article := none, searchResults := none,
        confidence := Confidence.low, relevanceScore := 0 } :=
  (factCheck_failure_fallbacks envInterrupt (("cats").data) none).1 rfl

/-- C5: on the success path `factCheck` chains the stages in order —
terms extracted from the content and topic, a search on the first term
with limit 3, a fetch of the first search result's title, and a scoring
of the fetched article against the original content and the extracted
terms — and the returned `relevanceScore` is exactly
`calculateRelevanceScore` of those arguments. -/
theorem factCheck_success_pipeline (env : FetchEnv) (content : List Char)
    (topic : Option (List Char)) (kt : List Char) (kts : List (List Char))
    (r : WikipediaSearchResult) (rs : List WikipediaSearchResult)
    (article : WikipediaArticle)
    (hI : env.interrupt = false)
    (hK : extractKeyTerms content topic = kt :: kts)
    (hS : searchArticles env kt 3 = r :: rs)
    (hA : getArticle env r.title = some article) :
    factCheck env content topic =
      { query := content, found := true, article := some article,
        searchResults := some (r :: rs),
        confidence :=
          if calculateRelevanceScore content article (kt :: kts) > 7/10 then Confidence.high
          else if calculateRelevanceScore content article (kt :: kts) > 2/5 then
            Confidence.medium
          else Confidence.low,
        relevanceScore := calculateRelevanceScore content article (kt :: kts) } := by
  have hI' : ¬env.interrupt = true := by rw [hI]; exact Bool.false_ne_true
  simp [factCheck, hI', hK, hS, hA]

/-- An environment on which every stage of `factCheck` succeeds. -/
def envSuccess : FetchEnv :=
  { fetchSearch := fun _ _ => Except.ok
      { ok := true,
        search := some [{ title := ("Cats").data, snippet := ("x").data, pageid := 1 }] },
    fetchArticle := fun _ => Except.ok (some
      { title := ("Cat").data, extract := some (("The cat is a domestic animal").data),
        pageid := 5, rev := 7, sections := none }),
    interrupt := false }

/-- The article record fetched in the C5 witness environment. -/
def articleCat : WikipediaArticle :=
  { title := ("Cat").data, extract := ("The cat is a domestic animal").data,
    pageid := 5, lastrevid := 7, sections := [] }

/-- The search result returned in the C5 witness environment. -/
def searchResultCats : WikipediaSearchResult :=
  { title := ("Cats").data, snippet := ("x").data, pageid := 1 }

/-- Witness for C5: the full pipeline at a concrete environment. -/
theorem factCheck_success_pipeline_witness :
    factCheck envSuccess (("cats cats").data) none =
      { query := ("cats cats").data, found := true,
        article := some articleCat,
        searchResults := some [searchResultCats],
        confidence :=
          if calculateRelevanceScore (("cats cats").data) articleCat
              [("cats").data] > 7/10 then Confidence.high
          else if calculateRelevanceScore (("cats cats").data) articleCat
              [("cats").data] > 2/5 then Confidence.medium
          else Confidence.low,
        relevanceScore :=
          calculateRelevanceScore (("cats cats").data) articleCat [("cats").data] } :=
  factCheck_success_pipeline envSuccess (("cats cats").data) none
    (("cats").data) [] searchResultCats [] articleCat
    rfl (by decide) (by decide) (by decide)
